import Mathlib

set_option maxRecDepth 20000

/-!
Shallow embedding of the crawl engine of `spacetime-crawler4py`
(`src/crawler/simhash.py`, `src/crawler/find_max.py`, `src/crawler/robots.py`,
`src/crawler/skip.py`, `src/crawler/worker.py`, `src/scraper.py`) together
with theorems settling the specification claims about it.

Machine integers are modelled by `ℕ`/`ℤ` (Python integers are unbounded, so no
wrap-around is involved), Python floats coming from `float(...)` and similarity
ratios by `ℚ`, Python dicts by insertion-ordered association lists, and
fallible calls by an explicit result type.  Components of the repository that
are not part of the source tree (the `utils` package, `frontier.py`,
`politeness.py`) are abstracted as parameters or, where a claim depends on
their behaviour, modelled from the spec (marked in their doc comments).
-/

/-! ### SimHash (src/crawler/simhash.py) -/

/-- Fuel-bounded population count.  `countOnesAux fuel n` counts the `1` bits
of `n`, peeling one binary digit per step; it is exact whenever `n ≤ fuel`.
The fuel makes the recursion structural, so it evaluates inside the kernel. -/
def countOnesAux : ℕ → ℕ → ℕ
  | _, 0 => 0
  | 0, _ + 1 => 0
  | fuel + 1, n + 1 => (n + 1) % 2 + countOnesAux fuel ((n + 1) / 2)

/-- Number of `1` bits in the binary representation of `n`: the embedding of
Python's `bin(n).count("1")` (simhash.py line 144). -/
def countOnes (n : ℕ) : ℕ := countOnesAux n n

/-- The fingerprint width used throughout `SimHash` (`bit_length = 256`,
simhash.py line 138; `_hashify` likewise iterates `range(256)`). -/
def BIT_LENGTH : ℕ := 256

/-- Embedding of `SimHash._compare_hashes` (simhash.py lines 128-144).  The two
hex-string arguments are modelled by their integer values (the function
immediately converts them with `int(h, 16)`).  Mirrors the source line by
line: `diff = hash1 ^ hash2`, `same_bits = ~diff`,
`mask = (1 << bit_length) - 1`, `same_bits = mask & same_bits`,
`return bin(same_bits).count("1") / bit_length`.  Python's unbounded-integer
bitwise NOT and AND are `Int.lnot` and `Int.land` (two's complement). -/
def compare_hashes (hash1 hash2 : ℕ) : ℚ :=
  let diff : ℤ := Int.xor (hash1 : ℤ) (hash2 : ℤ)
  let same_bits : ℤ := Int.lnot diff
  let mask : ℤ := (((1 <<< BIT_LENGTH) - 1 : ℕ) : ℤ)
  let masked : ℤ := Int.land mask same_bits
  (countOnes masked.toNat : ℚ) / (BIT_LENGTH : ℚ)

/-- Number of bit positions below 256 on which the two fingerprints agree
(the "count of matching bits" of the spec). -/
def matchingBits (h1 h2 : ℕ) : ℕ :=
  ((Finset.range BIT_LENGTH).filter (fun i => h1.testBit i = h2.testBit i)).card

/-- Hamming distance restricted to the 256 fingerprint positions. -/
def hammingBits (h1 h2 : ℕ) : ℕ :=
  ((Finset.range BIT_LENGTH).filter (fun i => h1.testBit i ≠ h2.testBit i)).card

/-- Lookup in a Python dict modelled as an insertion-ordered association
list: returns the value of the first (hence unique, for lists built by
`dictInsert`) entry with the given key. -/
def dictGet {α : Type} : List (String × α) → String → Option α
  | [], _ => none
  | p :: rest, k => if p.1 = k then some p.2 else dictGet rest k

/-- Key-membership test of a Python dict (`k in d`). -/
def dictContains {α : Type} (d : List (String × α)) (k : String) : Bool :=
  d.any (fun p => decide (p.1 = k))

/-- Assignment `d[k] = v` on a Python dict: if the key is present its entry is
updated in place (keeping its position), otherwise the binding is appended. -/
def dictInsert {α : Type} (d : List (String × α)) (k : String) (v : α) :
    List (String × α) :=
  if dictContains d k then d.map (fun p => if p.1 = k then (k, v) else p)
  else d ++ [(k, v)]

/-- Embedding of `SimHash.check_page_is_similar` (simhash.py lines 39-83),
parameterised by the page's already-computed fingerprint (`page_hash`), the
page URL and the configured `similarity_threshold`.  It returns the decision
together with the updated `self.hashes` store.  The source iterates over the
stored hashes and returns `True` at the first one whose similarity reaches the
threshold, leaving the store untouched; otherwise (also when the store is
empty) it executes `self.hashes[resp_url] = page_hash` and returns `False`. -/
def check_page_is_similar (threshold : ℚ) (hashes : List (String × ℕ))
    (resp_url : String) (page_hash : ℕ) : Bool × List (String × ℕ) :=
  if hashes.any (fun p => decide (threshold ≤ compare_hashes page_hash p.2)) then
    (true, hashes)
  else
    (false, dictInsert hashes resp_url page_hash)

/-- Accumulator vector of `SimHash._hashify` (simhash.py lines 100-111),
parameterised by the token hash function `sha` (modelling
`int(hashlib.sha256(token.encode("utf-8")).hexdigest(), 16)`).  Position `i`
of the 256-entry vector starts at `0` and each token contributes
`freq if (hash >> i) & 1 == 1 else -freq`. -/
def hashify_vector (sha : String → ℕ) (tokens : List (String × ℕ)) (i : ℕ) : ℤ :=
  tokens.foldl
    (fun acc tf => acc + (if (sha tf.1 >>> i) &&& 1 = 1 then (tf.2 : ℤ) else -(tf.2 : ℤ)))
    0

/-- Embedding of `SimHash._hashify` (simhash.py lines 94-123): starting from
`simhash = 0`, for every position `pos` of the accumulator vector with a
strictly positive count the bit `pos` is set (`simhash |= 1 << pos`).  The
source finally renders the value as the 64-hex-digit string
`f"{simhash:064x}"`; the embedding keeps the (identical) integer value. -/
def hashify (sha : String → ℕ) (tokens : List (String × ℕ)) : ℕ :=
  (List.range BIT_LENGTH).foldl
    (fun simhash pos =>
      if 0 < hashify_vector sha tokens pos then simhash ||| (1 <<< pos) else simhash)
    0

/-! ### FindMax (src/crawler/find_max.py) -/

/-- The single mutable record `self.curr_max` of `FindMax`
(`{"url": ..., "max_words": ...}`). -/
structure MaxState where
  url : String
  max_words : ℕ
deriving DecidableEq, Repr

/-- Embedding of `FindMax.found_new_max` (find_max.py lines 67-100),
parameterised by the page's word count (the value of
`get_word_count_from_response(resp)`, a utility outside the crawler core; a
missing/empty count is the falsy value `0`).  The source returns `False`
immediately on a falsy count (`if not word_count`), updates the record and
returns `True` when `word_count > self.curr_max["max_words"]`, and otherwise
returns `False` leaving the record unchanged. -/
def found_new_max (st : MaxState) (url : String) (word_count : ℕ) :
    Bool × MaxState :=
  if word_count = 0 then (false, st)
  else if st.max_words < word_count then (true, { url := url, max_words := word_count })
  else (false, st)

/-! ### Robots (src/crawler/robots.py) -/

/-- Abstraction of a parsed `urllib.robotparser.RobotFileParser`: the two
queries `Robots` delegates to it.  `crawlDelayFn` models
`RobotFileParser.crawl_delay(useragent)`, which returns a number or `None`
(`none` also covers an unparseable declared delay, which the stdlib parser
reports as `None`). -/
structure RobotParser where
  canFetchFn : String → String → Bool
  crawlDelayFn : String → Option ℚ

/-- Environment of the `Robots` class: the configured user agent, the
robots.txt fetch-and-parse pipeline of `_checkRobot` (`download` lives in the
`utils` package outside the crawler core; `none` models `not res or not
res.raw_response`, i.e. a failed or unreachable fetch, and `some parser`
models a successful download followed by `RobotFileParser.parse`), and the
key derivation `_getHashUrl = get_urlhash(normalize(_getBaseUrl(url)))`
together with `_getBaseUrl` (both `utils` helpers, abstracted as functions;
two URLs are on the same host exactly when their hashes coincide). -/
structure RobotsEnv where
  userAgent : String
  fetchRobots : String → Option RobotParser
  hashUrl : String → String
  baseUrl : String → String

/-- The `self._robots` dictionary: hashed base URL to parser-or-`None`
sentinel. -/
def RobotsDict : Type := List (String × Option RobotParser)

/-- Embedding of `Robots._checkRobot` (robots.py lines 129-157): fetches
`{base}/robots.txt`; on a failed download it records the `None` sentinel for
the host, otherwise it records the parsed policy. -/
def checkRobot (env : RobotsEnv) (robots : RobotsDict) (url : String) : RobotsDict :=
  let robot_url := env.baseUrl url ++ "/robots.txt"
  let urlhash := env.hashUrl url
  match env.fetchRobots robot_url with
  | none => dictInsert robots urlhash none
  | some parser => dictInsert robots urlhash (some parser)

/-- Embedding of `Robots._addSite` (robots.py lines 122-127): populates the
host's entry via `_checkRobot` only when it is absent. -/
def addSite (env : RobotsEnv) (robots : RobotsDict) (url : String) : RobotsDict :=
  if dictContains robots (env.hashUrl url) then robots else checkRobot env robots url

/-- Embedding of `Robots.can_fetch` (robots.py lines 52-60): after
`_addSite`, reads `self._robots[hashedUrl]`; a stored parser decides, the
`None` sentinel yields `True`.  (After `_addSite` the key is always present;
the unreachable absent-key case, a `KeyError` in Python, is mapped to the
same default.)  Returns the answer together with the updated dictionary. -/
def can_fetch (env : RobotsEnv) (robots : RobotsDict) (url : String) :
    Bool × RobotsDict :=
  let robots2 := addSite env robots url
  match dictGet robots2 (env.hashUrl url) with
  | some (some robot) => (robot.canFetchFn env.userAgent url, robots2)
  | some none => (true, robots2)
  | none => (true, robots2)

/-- Embedding of `Robots.crawl_delay` (robots.py lines 62-75): after
`_addSite`, a stored parser's declared delay is returned when it is truthy
(`if delay:`), and `0` is returned when the parser reports no (or an
unparseable) delay, when the delay is `0`, or when the host has the `None`
sentinel. -/
def crawl_delay (env : RobotsEnv) (robots : RobotsDict) (url : String) :
    ℚ × RobotsDict :=
  let robots2 := addSite env robots url
  match dictGet robots2 (env.hashUrl url) with
  | some (some robot) =>
      match robot.crawlDelayFn env.userAgent with
      | some delay => if delay ≠ 0 then (delay, robots2) else (0, robots2)
      | none => (0, robots2)
  | some none => (0, robots2)
  | none => (0, robots2)

/-- Embedding of `Robots.url_ends_with_xml` (robots.py lines 107-110):
`url.lower().endswith(".xml")`, on the underlying character list (Python
`str.lower` lower-cases each character). -/
def url_ends_with_xml (url : String) : Bool :=
  ".xml".data.isSuffixOf (url.data.map Char.toLower)

/-! ### Worker pipeline (src/crawler/worker.py, src/crawler/skip.py) -/

/-- The part of a downloaded response the worker pipeline inspects:
`contentLength` models `resp.raw_response.headers.get("content-length")`
converted by `float(...)` (`none` when the headers are falsy or the field is
absent), and `wordCount` models `get_word_count_from_response(resp)` (a
`utils` tokenizer helper; `0` is the falsy no-words value). -/
structure Response where
  contentLength : Option ℚ
  wordCount : ℕ

/-- Failure raised inside the per-URL pipeline (e.g. by `scraper.scraper`),
carried as its message. -/
def PyErr : Type := String

/-- Environment of one worker: the collaborators `Worker.run` calls for a
URL.  `prep_download` and `download` live in the `utils` package outside the
crawler core (`download = none` models `not (resp and resp.raw_response)`).
`page_is_similar` is the decision of `SimHash.check_page_is_similar` on the
response (its store update is verified separately on the `SimHash`
embedding).  `scraper` models the call `scraper.scraper(tbd_url, resp, ...)`
(scraper.py lines 181-189); it returns the extracted links or the failure it
raises — `scraper.py` guards `is_valid` with `try/except` but nothing guards
`extract_next_links`, and `worker.py` passes three arguments to a
two-parameter function, so the call can raise. -/
structure PipelineEnv where
  prep_download : String → Bool
  download : String → Option Response
  max_file_size : ℚ
  low_information_value : ℕ
  page_is_similar : Response → Bool
  scraper : String → Response → Except PyErr (List String)

/-- Mutable state the pipeline touches.  `skipSet` models the `Skip` store
(keyed in the source by the hash of the normalized URL; URLs stand for their
keys here), `completed` and `frontier` model the Frontier's completed flags
and pending queue, and `maxRec` is the `FindMax` record.  (The politeness
wait and the token-frequency counters have no effect observable by the
claims and are omitted.) -/
structure CrawlState where
  skipSet : List String
  completed : List String
  frontier : List String
  maxRec : MaxState
deriving DecidableEq, Repr

/-- Embedding of `Skip.add_url` (skip.py lines 38-53): the URL is recorded
only if it is not already present. -/
def skipAdd (s : List String) (u : String) : List String :=
  if u ∈ s then s else u :: s

/-- Modelled from the spec: `Frontier.mark_url_complete` (frontier.py is not
part of the source tree) — "sets `completed=true` for the matching
normalized entry. Idempotent." -/
def markComplete (c : List String) (u : String) : List String :=
  if u ∈ c then c else u :: c

/-- Modelled from the spec: `Frontier.add_url` (frontier.py is not part of
the source tree) — "if an entry for it does not already exist, inserts
`(url, completed=false)`. No-op if it already exists." -/
def frontierAdd (fr : List String) (u : String) : List String :=
  if u ∈ fr then fr else fr ++ [u]

/-- What one worker loop iteration decided about its URL. -/
inductive Outcome where
  | skipped
  | processed
deriving DecidableEq, Repr

/-- Result of one iteration of `Worker.run`'s loop body: either it finishes
(`ok`), or an uncaught exception leaves the body (`raised`), carrying the
state as mutated before the raise. -/
inductive StepResult where
  | ok : Outcome → CrawlState → StepResult
  | raised : PyErr → CrawlState → StepResult

/-- The declared-size check of worker.py lines 69-74:
`resp.raw_response.headers and headers.get("content-length") and
float(content-length) > config.max_file_size * 1048576`. -/
def size_exceeded (env : PipelineEnv) (resp : Response) : Bool :=
  match resp.contentLength with
  | some len => decide (env.max_file_size * 1048576 < len)
  | none => false

/-- The word-count floor check of worker.py lines 83-87:
`not robot.url_ends_with_xml(tbd_url) and get_word_count_from_response(resp)
and get_word_count_from_response(resp) < config.low_information_value`.
Note the middle conjunct: a falsy (zero) word count never triggers the
skip. -/
def low_info_skip (env : PipelineEnv) (tbd_url : String) (resp : Response) : Bool :=
  !url_ends_with_xml tbd_url && resp.wordCount != 0
    && decide (resp.wordCount < env.low_information_value)

/-- The near-duplicate check of worker.py lines 96-98:
`not robot.url_ends_with_xml(tbd_url) and simhash.check_page_is_similar(resp)`. -/
def similar_skip (env : PipelineEnv) (tbd_url : String) (resp : Response) : Bool :=
  !url_ends_with_xml tbd_url && env.page_is_similar resp

/-- Embedding of one iteration of `Worker.run`'s loop body for a popped URL
(worker.py lines 42-118).  Every skip path performs the pair
`skip.add_url(tbd_url)`; `frontier.mark_url_complete(tbd_url)` and moves on.
The loop body contains no `try/except`: a failure raised by the
`scraper.scraper` call leaves the body as `raised` (after the `FindMax`
update that already happened on that path) instead of producing a skip. -/
def runOnce (env : PipelineEnv) (st : CrawlState) (tbd_url : String) : StepResult :=
  if env.prep_download tbd_url = false then
    .ok .skipped { st with skipSet := skipAdd st.skipSet tbd_url,
                           completed := markComplete st.completed tbd_url }
  else
    match env.download tbd_url with
    | none =>
        .ok .skipped { st with skipSet := skipAdd st.skipSet tbd_url,
                               completed := markComplete st.completed tbd_url }
    | some resp =>
        if size_exceeded env resp then
          .ok .skipped { st with skipSet := skipAdd st.skipSet tbd_url,
                                 completed := markComplete st.completed tbd_url }
        else if low_info_skip env tbd_url resp then
          .ok .skipped { st with skipSet := skipAdd st.skipSet tbd_url,
                                 completed := markComplete st.completed tbd_url }
        else if similar_skip env tbd_url resp then
          .ok .skipped { st with skipSet := skipAdd st.skipSet tbd_url,
                                 completed := markComplete st.completed tbd_url }
        else
          match env.scraper tbd_url resp with
          | .error e =>
              .raised e
                { st with maxRec := (found_new_max st.maxRec tbd_url resp.wordCount).2 }
          | .ok links =>
              .ok .processed
                { st with maxRec := (found_new_max st.maxRec tbd_url resp.wordCount).2,
                          frontier := links.foldl frontierAdd st.frontier,
                          completed := markComplete st.completed tbd_url }

/-! ### Lemmas about the fingerprint arithmetic -/

theorem countOnesAux_eq_sum (fuel : ℕ) : ∀ n k, n ≤ fuel → n < 2 ^ k →
    countOnesAux fuel n = ∑ i ∈ Finset.range k, if n.testBit i then 1 else 0 := by
  induction fuel with
  | zero =>
    intro n k hn _
    have hn0 : n = 0 := by omega
    subst hn0
    simp [countOnesAux, Nat.zero_testBit]
  | succ fuel ih =>
    intro n k hn hk
    match n with
    | 0 => simp [countOnesAux, Nat.zero_testBit]
    | m + 1 =>
      have hk0 : k ≠ 0 := by
        rintro rfl
        simp at hk
      obtain ⟨j, rfl⟩ : ∃ j, k = j + 1 := ⟨k - 1, by omega⟩
      have hle : (m + 1) / 2 ≤ fuel := by omega
      have hlt : (m + 1) / 2 < 2 ^ j := by
        rw [Nat.div_lt_iff_lt_mul (by norm_num)]
        rw [pow_succ] at hk
        omega
      show (m + 1) % 2 + countOnesAux fuel ((m + 1) / 2) = _
      rw [ih ((m + 1) / 2) j hle hlt, Finset.sum_range_succ']
      have hsum : ∀ i, (m + 1).testBit (i + 1) = ((m + 1) / 2).testBit i := fun i =>
        Nat.testBit_succ (m + 1) i
      simp only [hsum]
      have hbit0 : (m + 1) % 2 = if (m + 1).testBit 0 then 1 else 0 := by
        rw [Nat.testBit_zero]
        rcases Nat.mod_two_eq_zero_or_one (m + 1) with h | h <;> simp [h]
      rw [hbit0, Nat.add_comm]

theorem countOnes_eq_card {n k : ℕ} (h : n < 2 ^ k) :
    countOnes n = ((Finset.range k).filter (fun i => n.testBit i = true)).card := by
  rw [countOnes, countOnesAux_eq_sum n n k le_rfl h, Finset.card_filter]

theorem lt_two_pow_of_testBit_false {n w : ℕ} (h : ∀ i, w ≤ i → n.testBit i = false) :
    n < 2 ^ w := by
  have hmod : n % 2 ^ w = n := by
    apply Nat.eq_of_testBit_eq
    intro i
    rw [Nat.testBit_mod_two_pow]
    by_cases hi : i < w
    · simp [hi]
    · simp [hi, h i (by omega)]
  have hpos : 0 < 2 ^ w := Nat.pos_pow_of_pos w (by norm_num)
  calc n = n % 2 ^ w := hmod.symm
    _ < 2 ^ w := Nat.mod_lt _ hpos

theorem xor_lt_two_pow {a b w : ℕ} (ha : a < 2 ^ w) (hb : b < 2 ^ w) :
    a ^^^ b < 2 ^ w := by
  apply lt_two_pow_of_testBit_false
  intro i hi
  have hpow : (2 : ℕ) ^ w ≤ 2 ^ i := Nat.pow_le_pow_right (by norm_num) hi
  rw [Nat.testBit_xor,
    Nat.testBit_lt_two_pow (lt_of_lt_of_le ha hpow),
    Nat.testBit_lt_two_pow (lt_of_lt_of_le hb hpow)]
  rfl

theorem ldiff_mask_eq {w d : ℕ} (hd : d < 2 ^ w) :
    Nat.ldiff (2 ^ w - 1) d = (2 ^ w - 1) ^^^ d := by
  apply Nat.eq_of_testBit_eq
  intro i
  rw [Nat.testBit_ldiff, Nat.testBit_xor, Nat.testBit_two_pow_sub_one]
  by_cases hi : i < w
  · simp [hi]
  · have hpow : (2 : ℕ) ^ w ≤ 2 ^ i := Nat.pow_le_pow_right (by norm_num) (by omega)
    simp [hi, Nat.testBit_lt_two_pow (lt_of_lt_of_le hd hpow)]

theorem mask_eq : (1 <<< BIT_LENGTH) - 1 = 2 ^ BIT_LENGTH - 1 := by
  rw [Nat.shiftLeft_eq, one_mul]

theorem compare_hashes_eval (h1 h2 : ℕ) :
    compare_hashes h1 h2 =
      (countOnes (Nat.ldiff ((1 <<< BIT_LENGTH) - 1) (h1 ^^^ h2)) : ℚ) / (BIT_LENGTH : ℚ) :=
  rfl

theorem compare_eq_matching {h1 h2 : ℕ} (H1 : h1 < 2 ^ BIT_LENGTH)
    (H2 : h2 < 2 ^ BIT_LENGTH) :
    compare_hashes h1 h2 = (matchingBits h1 h2 : ℚ) / (BIT_LENGTH : ℚ) := by
  have hxor : h1 ^^^ h2 < 2 ^ BIT_LENGTH := xor_lt_two_pow H1 H2
  have hmask : (2 : ℕ) ^ BIT_LENGTH - 1 < 2 ^ BIT_LENGTH := by
    have := Nat.pos_pow_of_pos BIT_LENGTH (show 0 < 2 by norm_num)
    omega
  rw [compare_hashes_eval, mask_eq, ldiff_mask_eq hxor,
    countOnes_eq_card (xor_lt_two_pow hmask hxor)]
  congr 2
  unfold matchingBits
  refine congrArg Finset.card (Finset.filter_congr ?_)
  intro i hi
  have hi' : i < BIT_LENGTH := Finset.mem_range.mp hi
  rw [Nat.testBit_xor, Nat.testBit_xor, Nat.testBit_two_pow_sub_one]
  simp only [decide_eq_true hi', Bool.true_xor]
  cases hb1 : h1.testBit i <;> cases hb2 : h2.testBit i <;> simp

theorem matching_add_hamming (h1 h2 : ℕ) :
    matchingBits h1 h2 + hammingBits h1 h2 = BIT_LENGTH := by
  have h := Finset.filter_card_add_filter_neg_card_eq_card
    (s := Finset.range BIT_LENGTH) (p := fun i => h1.testBit i = h2.testBit i)
  simpa [matchingBits, hammingBits, Finset.card_range, Ne] using h

theorem matching_le (h1 h2 : ℕ) : matchingBits h1 h2 ≤ BIT_LENGTH := by
  have h := Finset.card_filter_le (Finset.range BIT_LENGTH)
    (fun i => h1.testBit i = h2.testBit i)
  simpa [matchingBits, Finset.card_range] using h

theorem matching_self (h : ℕ) : matchingBits h h = BIT_LENGTH := by
  unfold matchingBits
  rw [Finset.filter_true_of_mem (fun _ _ => rfl), Finset.card_range]

theorem compare_comm (h1 h2 : ℕ) : compare_hashes h1 h2 = compare_hashes h2 h1 := by
  rw [compare_hashes_eval, compare_hashes_eval, Nat.xor_comm]

theorem compare_self {h : ℕ} (H : h < 2 ^ BIT_LENGTH) : compare_hashes h h = 1 := by
  rw [compare_eq_matching H H, matching_self]
  norm_num [BIT_LENGTH]

theorem foldl_add_eq_sum (g : (String × ℕ) → ℤ) (l : List (String × ℕ)) (a : ℤ) :
    l.foldl (fun acc tf => acc + g tf) a = a + (l.map g).sum := by
  induction l generalizing a with
  | nil => simp
  | cons hd tl ih => simp [ih]; ring

theorem shift_and_one_eq_testBit (x i : ℕ) :
    ((x >>> i) &&& 1 = 1) = (x.testBit i = true) := by
  apply propext
  rw [Nat.and_one_is_mod, Nat.shiftRight_eq_div_pow, Nat.testBit_to_div_mod]
  simp

theorem hashify_vector_eq_sum (sha : String → ℕ) (tokens : List (String × ℕ)) (i : ℕ) :
    hashify_vector sha tokens i =
      (tokens.map
        (fun tf => if (sha tf.1).testBit i then (tf.2 : ℤ) else -(tf.2 : ℤ))).sum := by
  rw [hashify_vector, foldl_add_eq_sum, zero_add]
  simp only [shift_and_one_eq_testBit]

theorem testBit_foldl_range (P : ℕ → Prop) [DecidablePred P] (n i : ℕ) :
    ((List.range n).foldl (fun s pos => if P pos then s ||| (1 <<< pos) else s) 0).testBit i
      = (decide (i < n) && decide (P i)) := by
  induction n with
  | zero => simp [Nat.zero_testBit]
  | succ n ih =>
    rw [List.range_succ, List.foldl_append]
    simp only [List.foldl_cons, List.foldl_nil]
    by_cases hP : P n
    · rw [if_pos hP, Nat.testBit_or, ih, Nat.shiftLeft_eq, one_mul, Nat.testBit_two_pow]
      by_cases hin : i = n
      · subst hin
        simp [hP]
      · have hiff : (i < n + 1) = (i < n) := propext (by omega)
        have hne : (n = i) = False := by
          apply propext
          constructor
          · intro h
            exact hin h.symm
          · intro h
            exact h.elim
        simp [hiff, hne]
    · rw [if_neg hP, ih]
      by_cases hin : i = n
      · subst hin
        simp [hP]
      · have hiff : (i < n + 1) = (i < n) := propext (by omega)
        simp [hiff]

theorem hashify_testBit (sha : String → ℕ) (tokens : List (String × ℕ)) (i : ℕ) :
    (hashify sha tokens).testBit i
      = (decide (i < BIT_LENGTH) && decide (0 < hashify_vector sha tokens i)) :=
  testBit_foldl_range (fun pos => 0 < hashify_vector sha tokens pos) BIT_LENGTH i

theorem hashify_nil_eq_zero (sha : String → ℕ) : hashify sha [] = 0 := by
  apply Nat.eq_of_testBit_eq
  intro i
  rw [hashify_testBit, Nat.zero_testBit]
  have hv : hashify_vector sha [] i = 0 := rfl
  simp [hv]

/-! ### Lemmas about the dict model -/

theorem dictContains_tail {α : Type} {p : String × α} {rest : List (String × α)}
    {k : String} (hp : ¬ p.1 = k) (hc : dictContains (p :: rest) k = true) :
    dictContains rest k = true := by
  simp only [dictContains, List.any_cons] at hc ⊢
  rcases Bool.or_eq_true_iff.mp hc with h | h
  · exact absurd (of_decide_eq_true h) hp
  · exact h

theorem dictGet_map_update {α : Type} (d : List (String × α)) (k : String) (v : α)
    (hc : dictContains d k = true) :
    dictGet (d.map (fun p => if p.1 = k then (k, v) else p)) k = some v := by
  induction d with
  | nil => simp [dictContains] at hc
  | cons p rest ih =>
    simp only [List.map_cons]
    by_cases hp : p.1 = k
    · simp [dictGet, hp]
    · rw [if_neg hp]
      simp only [dictGet, if_neg hp]
      exact ih (dictContains_tail hp hc)

theorem dictGet_append_self {α : Type} (d : List (String × α)) (k : String) (v : α)
    (hc : dictContains d k = false) :
    dictGet (d ++ [(k, v)]) k = some v := by
  induction d with
  | nil => simp [dictGet]
  | cons p rest ih =>
    simp only [dictContains, List.any_cons, Bool.or_eq_false_iff] at hc
    have hp : ¬ p.1 = k := by
      intro h
      simp [h] at hc
    simp only [List.cons_append, dictGet, if_neg hp]
    exact ih (by simp [dictContains, hc.2])

theorem dictGet_dictInsert_self {α : Type} (d : List (String × α)) (k : String) (v : α) :
    dictGet (dictInsert d k v) k = some v := by
  unfold dictInsert
  by_cases hc : dictContains d k
  · rw [if_pos hc]
    exact dictGet_map_update d k v hc
  · rw [if_neg hc]
    exact dictGet_append_self d k v (by simpa using hc)

theorem dictGet_map_update_ne {α : Type} (d : List (String × α)) (k k2 : String) (v : α)
    (hne : k2 ≠ k) :
    dictGet (d.map (fun p => if p.1 = k then (k, v) else p)) k2 = dictGet d k2 := by
  induction d with
  | nil => rfl
  | cons p rest ih =>
    simp only [List.map_cons]
    by_cases hp : p.1 = k
    · rw [if_pos hp]
      have hk2 : ¬ k = k2 := fun h => hne h.symm
      have hp2 : ¬ p.1 = k2 := by
        rw [hp]
        exact hk2
      simp only [dictGet, if_neg hk2, if_neg hp2]
      exact ih
    · rw [if_neg hp]
      simp only [dictGet]
      by_cases hp2 : p.1 = k2
      · rw [if_pos hp2, if_pos hp2]
      · rw [if_neg hp2, if_neg hp2]
        exact ih

theorem dictGet_append_ne {α : Type} (d : List (String × α)) (k k2 : String) (v : α)
    (hne : k2 ≠ k) :
    dictGet (d ++ [(k, v)]) k2 = dictGet d k2 := by
  induction d with
  | nil =>
    simp only [List.nil_append, dictGet]
    rw [if_neg (fun h => hne h.symm)]
  | cons p rest ih =>
    simp only [List.cons_append, dictGet]
    by_cases hp2 : p.1 = k2
    · rw [if_pos hp2, if_pos hp2]
    · rw [if_neg hp2, if_neg hp2]
      exact ih

theorem dictGet_dictInsert_ne {α : Type} (d : List (String × α)) (k k2 : String) (v : α)
    (hne : k2 ≠ k) :
    dictGet (dictInsert d k v) k2 = dictGet d k2 := by
  unfold dictInsert
  by_cases hc : dictContains d k
  · rw [if_pos hc]
    exact dictGet_map_update_ne d k k2 v hne
  · rw [if_neg hc]
    exact dictGet_append_ne d k k2 v hne

theorem dictContains_of_get {α : Type} {d : List (String × α)} {k : String} {v : α}
    (h : dictGet d k = some v) : dictContains d k = true := by
  induction d with
  | nil => simp [dictGet] at h
  | cons p rest ih =>
    simp only [dictGet] at h
    simp only [dictContains, List.any_cons, Bool.or_eq_true_iff]
    by_cases hp : p.1 = k
    · exact Or.inl (decide_eq_true hp)
    · rw [if_neg hp] at h
      exact Or.inr (ih h)

/-! ### Lemmas about the worker state updates -/

theorem mem_skipAdd_self (s : List String) (u : String) : u ∈ skipAdd s u := by
  unfold skipAdd
  split
  · assumption
  · exact List.mem_cons_self u s

theorem mem_markComplete_self (c : List String) (u : String) : u ∈ markComplete c u := by
  unfold markComplete
  split
  · assumption
  · exact List.mem_cons_self u c

theorem subset_markComplete (c : List String) (u : String) : c ⊆ markComplete c u := by
  unfold markComplete
  split
  · exact fun _ h => h
  · exact List.subset_cons_self u c

theorem skipAdd_subset_markComplete {s c : List String} (u : String) (hsc : s ⊆ c) :
    skipAdd s u ⊆ markComplete c u := by
  intro x hx
  unfold skipAdd at hx
  split at hx
  · exact subset_markComplete c u (hsc hx)
  · rcases List.mem_cons.mp hx with h | h
    · rw [h]
      exact mem_markComplete_self c u
    · exact subset_markComplete c u (hsc h)

/-! ### Claims -/

/-- Claim C3: for all 256-bit fingerprints `h1` and `h2`, `_compare_hashes`
returns (number of matching bit positions)/256, which equals
1 − Hamming(h1,h2)/256 (the inverted XOR being masked to 256 bits);
consequently it is symmetric, equals 1.0 on identical fingerprints, and
always lies in [0, 1]. -/
theorem claim_C3_compare_hashes (h1 h2 : ℕ)
    (H1 : h1 < 2 ^ BIT_LENGTH) (H2 : h2 < 2 ^ BIT_LENGTH) :
    compare_hashes h1 h2 = (matchingBits h1 h2 : ℚ) / 256
    ∧ compare_hashes h1 h2 = 1 - (hammingBits h1 h2 : ℚ) / 256
    ∧ compare_hashes h1 h2 = compare_hashes h2 h1
    ∧ compare_hashes h1 h1 = 1
    ∧ 0 ≤ compare_hashes h1 h2
    ∧ compare_hashes h1 h2 ≤ 1 := by
  have hBL : (BIT_LENGTH : ℚ) = 256 := by norm_num [BIT_LENGTH]
  have hm : compare_hashes h1 h2 = (matchingBits h1 h2 : ℚ) / 256 := by
    rw [compare_eq_matching H1 H2, hBL]
  refine ⟨hm, ?_, compare_comm h1 h2, compare_self H1, ?_, ?_⟩
  · have hsum : (matchingBits h1 h2 : ℚ) + (hammingBits h1 h2 : ℚ) = 256 := by
      have := matching_add_hamming h1 h2
      have : matchingBits h1 h2 + hammingBits h1 h2 = 256 := by
        simpa [BIT_LENGTH] using this
      exact_mod_cast this
    rw [hm]
    field_simp
    linarith
  · rw [hm]
    positivity
  · rw [hm]
    have hle : (matchingBits h1 h2 : ℚ) ≤ 256 := by
      have := matching_le h1 h2
      have h256 : matchingBits h1 h2 ≤ 256 := by simpa [BIT_LENGTH] using this
      exact_mod_cast h256
    rw [div_le_one (by norm_num)]
    exact hle

/-- Witness for C3 at the concrete fingerprints 0 and 3. -/
theorem claim_C3_witness :
    (0 : ℕ) < 2 ^ BIT_LENGTH ∧ (3 : ℕ) < 2 ^ BIT_LENGTH ∧
    (compare_hashes 0 3 = (matchingBits 0 3 : ℚ) / 256
      ∧ compare_hashes 0 3 = 1 - (hammingBits 0 3 : ℚ) / 256
      ∧ compare_hashes 0 3 = compare_hashes 3 0
      ∧ compare_hashes 0 0 = 1
      ∧ 0 ≤ compare_hashes 0 3
      ∧ compare_hashes 0 3 ≤ 1) :=
  ⟨by decide, by decide, claim_C3_compare_hashes 0 3 (by decide) (by decide)⟩

/-- Claim C4: `_hashify` computes a 256-entry signed accumulator, initially
zero, where each token adds its frequency at every bit position where its
hash has bit 1 and subtracts it where the bit is 0, and the returned
fingerprint has bit `i` set iff the accumulator at `i` is strictly positive
(an accumulator value of exactly 0 yields bit 0). -/
theorem claim_C4_hashify (sha : String → ℕ) (tokens : List (String × ℕ)) (i : ℕ)
    (hi : i < BIT_LENGTH) :
    ((hashify sha tokens).testBit i = decide (0 < hashify_vector sha tokens i))
    ∧ hashify_vector sha tokens i =
        (tokens.map
          (fun tf => if (sha tf.1).testBit i then (tf.2 : ℤ) else -(tf.2 : ℤ))).sum := by
  constructor
  · rw [hashify_testBit]
    simp [decide_eq_true hi]
  · exact hashify_vector_eq_sum sha tokens i

/-- Witness for C4 at bit 0 with a single token of frequency 3 whose hash is 1. -/
theorem claim_C4_witness :
    (0 : ℕ) < BIT_LENGTH ∧
    (((hashify (fun _ => 1) [("a", 3)]).testBit 0
        = decide (0 < hashify_vector (fun _ => 1) [("a", 3)] 0))
      ∧ hashify_vector (fun _ => 1) [("a", 3)] 0 =
          ([("a", 3)].map
            (fun tf => if ((fun _ => (1 : ℕ)) tf.1).testBit 0
              then ((tf.2 : ℕ) : ℤ) else -((tf.2 : ℕ) : ℤ))).sum) :=
  ⟨by decide, claim_C4_hashify (fun _ => 1) [("a", 3)] 0 (by decide)⟩

/-- Claim C2: `check_page_is_similar` returns `True` iff the page's
fingerprint reaches the similarity threshold against at least one previously
stored fingerprint; on `False` the fingerprint is stored keyed by the page's
URL, and on `True` the store is unchanged. -/
theorem claim_C2_check_page_is_similar (θ : ℚ) (st : List (String × ℕ))
    (u : String) (h : ℕ) :
    ((check_page_is_similar θ st u h).1 = true
        ↔ ∃ p ∈ st, θ ≤ compare_hashes h p.2)
    ∧ (check_page_is_similar θ st u h).2
        = (if (check_page_is_similar θ st u h).1 = true then st else dictInsert st u h)
    ∧ dictGet (dictInsert st u h) u = some h := by
  refine ⟨?_, ?_, dictGet_dictInsert_self st u h⟩
  · unfold check_page_is_similar
    by_cases hany : st.any (fun p => decide (θ ≤ compare_hashes h p.2))
    · rw [if_pos hany]
      simp only [true_iff]
      rcases List.any_eq_true.mp hany with ⟨p, hp, hd⟩
      exact ⟨p, hp, of_decide_eq_true hd⟩
    · rw [if_neg hany]
      simp only [Bool.false_eq_true, false_iff]
      intro ⟨p, hp, hd⟩
      exact hany (List.any_eq_true.mpr ⟨p, hp, decide_eq_true hd⟩)
  · unfold check_page_is_similar
    by_cases hany : st.any (fun p => decide (θ ≤ compare_hashes h p.2))
    · rw [if_pos hany]
      simp
    · rw [if_neg hany]
      simp

/-- Counterexample for C9: the SimHash store is not append-only.  Starting
from a store holding fingerprint 0 for URL "u", re-checking the same URL "u"
with the (dissimilar) fingerprint 2^256 − 1 at threshold 0.9 returns `False`
and overwrites the stored fingerprint for "u" with the new, different value. -/
theorem claim_C9_counterexample :
    dictGet [("u", (0 : ℕ))] "u" = some 0
    ∧ (check_page_is_similar (9/10) [("u", 0)] "u" (2 ^ BIT_LENGTH - 1)).1 = false
    ∧ dictGet (check_page_is_similar (9/10) [("u", 0)] "u" (2 ^ BIT_LENGTH - 1)).2 "u"
        = some (2 ^ BIT_LENGTH - 1)
    ∧ (2 ^ BIT_LENGTH - 1 : ℕ) ≠ 0 := by
  have hmask : (2 : ℕ) ^ BIT_LENGTH - 1 < 2 ^ BIT_LENGTH := by
    have := Nat.pos_pow_of_pos BIT_LENGTH (show 0 < 2 by norm_num)
    omega
  have hcmp : compare_hashes (2 ^ BIT_LENGTH - 1) 0 = 0 := by
    rw [compare_hashes_eval, mask_eq, Nat.xor_zero, ldiff_mask_eq hmask, Nat.xor_self]
    norm_num [countOnes, countOnesAux]
  have hany : ([("u", (0 : ℕ))].any
      (fun p => decide ((9:ℚ)/10 ≤ compare_hashes (2 ^ BIT_LENGTH - 1) p.2))) = false := by
    simp only [List.any_cons, List.any_nil, Bool.or_false]
    rw [hcmp]
    simp only [decide_eq_false_iff_not]
    norm_num
  have hch : check_page_is_similar (9/10) [("u", 0)] "u" (2 ^ BIT_LENGTH - 1)
      = (false, dictInsert [("u", 0)] "u" (2 ^ BIT_LENGTH - 1)) := by
    unfold check_page_is_similar
    rw [if_neg (by rw [hany]; exact Bool.false_ne_true)]
  refine ⟨rfl, by rw [hch], ?_, ?_⟩
  · rw [hch]
    exact dictGet_dictInsert_self [("u", 0)] "u" (2 ^ BIT_LENGTH - 1)
  · decide

/-- Claim C9 (amended): a call of `check_page_is_similar` never modifies the
stored fingerprint of any URL other than the one being checked; an entry can
only be overwritten by a later call for the same URL (one whose fingerprint
fails the similarity test against every stored fingerprint). -/
theorem claim_C9_amended (θ : ℚ) (st : List (String × ℕ)) (u u2 : String) (h : ℕ)
    (hne : u2 ≠ u) :
    dictGet (check_page_is_similar θ st u h).2 u2 = dictGet st u2 := by
  unfold check_page_is_similar
  by_cases hany : st.any (fun p => decide (θ ≤ compare_hashes h p.2))
  · rw [if_pos hany]
  · rw [if_neg hany]
    exact dictGet_dictInsert_ne st u u2 h hne

/-- Witness for the amended C9: a call for URL "b" leaves the entry of "a"
unchanged. -/
theorem claim_C9_amended_witness :
    ("a" : String) ≠ "b" ∧
    dictGet (check_page_is_similar 1 [("a", 5)] "b" 7).2 "a" = dictGet [("a", 5)] "a" :=
  ⟨by decide, claim_C9_amended 1 [("a", 5)] "b" "a" 7 (by decide)⟩

/-- Claim C10: an empty token-frequency map hashes to the all-zero
fingerprint; two all-zero fingerprints have similarity 1.0, so once one
token-less page's fingerprint is stored, `check_page_is_similar` reports
every further token-less page as a near-duplicate for any threshold ≤ 1. -/
theorem claim_C10_empty_tokens (sha : String → ℕ) (θ : ℚ) (st : List (String × ℕ))
    (u0 u : String) (hθ : θ ≤ 1) (hmem : (u0, (0 : ℕ)) ∈ st) :
    hashify sha [] = 0
    ∧ compare_hashes 0 0 = 1
    ∧ (check_page_is_similar θ st u (hashify sha [])).1 = true := by
  have h0 : hashify sha [] = 0 := hashify_nil_eq_zero sha
  have h1 : compare_hashes 0 0 = 1 :=
    compare_self (Nat.pos_pow_of_pos BIT_LENGTH (by norm_num))
  refine ⟨h0, h1, ?_⟩
  rw [h0]
  unfold check_page_is_similar
  rw [if_pos ?_]
  apply List.any_eq_true.mpr
  refine ⟨(u0, 0), hmem, ?_⟩
  apply decide_eq_true
  rw [h1]
  exact hθ

/-- Witness for C10: with fingerprint 0 stored for "a", a token-less page at
URL "b" is reported similar at threshold 1. -/
theorem claim_C10_witness :
    ((1 : ℚ) ≤ 1 ∧ ("a", (0 : ℕ)) ∈ [("a", (0 : ℕ))]) ∧
    (hashify (fun _ => 0) [] = 0
      ∧ compare_hashes 0 0 = 1
      ∧ (check_page_is_similar 1 [("a", 0)] "b" (hashify (fun _ => 0) [])).1 = true) :=
  ⟨⟨le_refl 1, by decide⟩,
    claim_C10_empty_tokens (fun _ => 0) 1 [("a", 0)] "a" "b" (le_refl 1) (by decide)⟩

/-- Claim C5: `found_new_max` updates the record to `(url, word_count)` and
returns `True` exactly when the response's word count strictly exceeds the
stored maximum; otherwise (count ≤ stored maximum, which includes the
no-words count 0) the record is unchanged and it returns `False`. -/
theorem claim_C5_found_new_max (st : MaxState) (url : String) (wc : ℕ) :
    found_new_max st url wc
      = if st.max_words < wc then (true, { url := url, max_words := wc })
        else (false, st) := by
  unfold found_new_max
  by_cases h0 : wc = 0
  · subst h0
    simp
  · simp [h0]

/-- Claim C6: when a host's robots.txt fetch fails, `_checkRobot` records the
"no policy" sentinel (`None`) for that host; thereafter `can_fetch` returns
`True` and `crawl_delay` returns 0 for every URL of that host (leaving the
record store unchanged); and `crawl_delay` also returns 0 whenever a stored
parser reports no (or an unparseable) declared delay. -/
theorem claim_C6_robots_failure (env : RobotsEnv) (robots : RobotsDict) (url : String)
    (hfail : env.fetchRobots (env.baseUrl url ++ "/robots.txt") = none) :
    dictGet (checkRobot env robots url) (env.hashUrl url) = some none
    ∧ (∀ url2, env.hashUrl url2 = env.hashUrl url →
        can_fetch env (checkRobot env robots url) url2
            = (true, checkRobot env robots url)
        ∧ crawl_delay env (checkRobot env robots url) url2
            = (0, checkRobot env robots url))
    ∧ (∀ (robots2 : RobotsDict) (url2 : String) (p : RobotParser),
        dictGet robots2 (env.hashUrl url2) = some (some p) →
        p.crawlDelayFn env.userAgent = none →
        crawl_delay env robots2 url2 = (0, robots2)) := by
  have hrec : dictGet (checkRobot env robots url) (env.hashUrl url) = some none := by
    simp only [checkRobot, hfail]
    exact dictGet_dictInsert_self robots (env.hashUrl url) none
  refine ⟨hrec, ?_, ?_⟩
  · intro url2 hhash
    have hget : dictGet (checkRobot env robots url) (env.hashUrl url2) = some none := by
      rw [hhash]
      exact hrec
    have hadd : addSite env (checkRobot env robots url) url2 = checkRobot env robots url := by
      unfold addSite
      rw [if_pos (dictContains_of_get hget)]
    constructor
    · simp only [can_fetch, hadd, hget]
    · simp only [crawl_delay, hadd, hget]
  · intro robots2 url2 p hget hdelay
    have hadd : addSite env robots2 url2 = robots2 := by
      unfold addSite
      rw [if_pos (dictContains_of_get hget)]
    simp only [crawl_delay, hadd, hget, hdelay]

/-- Witness for C6 with a one-host environment whose robots.txt download
fails. -/
theorem claim_C6_witness :
    (RobotsEnv.fetchRobots
        { userAgent := "IR UW24 agent", fetchRobots := fun _ => none,
          hashUrl := fun _ => "h", baseUrl := fun s => s }
        (("http://x.ics.uci.edu" : String) ++ "/robots.txt") = none)
    ∧ (dictGet
        (checkRobot
          { userAgent := "IR UW24 agent", fetchRobots := fun _ => none,
            hashUrl := fun _ => "h", baseUrl := fun s => s }
          [] "http://x.ics.uci.edu") "h" = some none
      ∧ (∀ url2, (fun (_ : String) => "h") url2 = "h" →
          can_fetch
              { userAgent := "IR UW24 agent", fetchRobots := fun _ => none,
                hashUrl := fun _ => "h", baseUrl := fun s => s }
              (checkRobot
                { userAgent := "IR UW24 agent", fetchRobots := fun _ => none,
                  hashUrl := fun _ => "h", baseUrl := fun s => s }
                [] "http://x.ics.uci.edu") url2
            = (true, checkRobot
                { userAgent := "IR UW24 agent", fetchRobots := fun _ => none,
                  hashUrl := fun _ => "h", baseUrl := fun s => s }
                [] "http://x.ics.uci.edu")
          ∧ crawl_delay
              { userAgent := "IR UW24 agent", fetchRobots := fun _ => none,
                hashUrl := fun _ => "h", baseUrl := fun s => s }
              (checkRobot
                { userAgent := "IR UW24 agent", fetchRobots := fun _ => none,
                  hashUrl := fun _ => "h", baseUrl := fun s => s }
                [] "http://x.ics.uci.edu") url2
            = (0, checkRobot
                { userAgent := "IR UW24 agent", fetchRobots := fun _ => none,
                  hashUrl := fun _ => "h", baseUrl := fun s => s }
                [] "http://x.ics.uci.edu"))
      ∧ (∀ (robots2 : RobotsDict) (url2 : String) (p : RobotParser),
          dictGet robots2 ((fun (_ : String) => "h") url2) = some (some p) →
          p.crawlDelayFn "IR UW24 agent" = none →
          crawl_delay
              { userAgent := "IR UW24 agent", fetchRobots := fun _ => none,
                hashUrl := fun _ => "h", baseUrl := fun s => s }
              robots2 url2 = (0, robots2))) :=
  ⟨rfl,
    claim_C6_robots_failure
      { userAgent := "IR UW24 agent", fetchRobots := fun _ => none,
        hashUrl := fun _ => "h", baseUrl := fun s => s }
      [] "http://x.ics.uci.edu" rfl⟩

/-- Counterexample for C1: with every pre-check passing, a failure raised by
the `scraper.scraper` call leaves the loop body of `Worker.run` as an
uncaught exception — the result is `raised`, not a skip decision: the URL is
recorded in neither the Skip Set nor the Frontier's completed set. -/
theorem claim_C1_counterexample :
    runOnce
        { prep_download := fun _ => true,
          download := fun _ => some { contentLength := none, wordCount := 100 },
          max_file_size := 1, low_information_value := 50,
          page_is_similar := fun _ => false,
          scraper := fun _ _ => Except.error "TypeError in scraper.scraper" }
        { skipSet := [], completed := [], frontier := [],
          maxRec := { url := "None", max_words := 0 } }
        "http://www.ics.uci.edu/index.html"
      = StepResult.raised "TypeError in scraper.scraper"
          { skipSet := [], completed := [], frontier := [],
            maxRec := { url := "http://www.ics.uci.edu/index.html", max_words := 100 } } :=
  rfl

/-- Claim C1 (amended): per-URL failures are not swallowed at the worker
pipeline boundary — `Worker.run` contains no try/except, so a failure raised
inside the pipeline (in particular by the `scraper.scraper` call) propagates
out of the loop body, terminating that worker, instead of being converted
into a skip decision; only the explicit pre-checks produce skips. -/
theorem claim_C1_amended (env : PipelineEnv) (st : CrawlState) (u : String)
    (resp : Response) (e : PyErr)
    (h1 : env.prep_download u = true)
    (h2 : env.download u = some resp)
    (h3 : size_exceeded env resp = false)
    (h4 : low_info_skip env u resp = false)
    (h5 : similar_skip env u resp = false)
    (h6 : env.scraper u resp = Except.error e) :
    runOnce env st u
      = StepResult.raised e
          { st with maxRec := (found_new_max st.maxRec u resp.wordCount).2 } := by
  simp only [runOnce, h1, h2, h3, h4, h5, h6]
  rfl

/-- Witness for the amended C1, instantiating the pipeline at a concrete
environment whose scraper raises. -/
theorem claim_C1_amended_witness :
    (PipelineEnv.prep_download
        { prep_download := fun _ => true,
          download := fun _ => some { contentLength := none, wordCount := 80 },
          max_file_size := 1, low_information_value := 50,
          page_is_similar := fun _ => false,
          scraper := fun _ _ => Except.error "boom" }
        "http://www.cs.uci.edu/p" = true)
    ∧ runOnce
          { prep_download := fun _ => true,
            download := fun _ => some { contentLength := none, wordCount := 80 },
            max_file_size := 1, low_information_value := 50,
            page_is_similar := fun _ => false,
            scraper := fun _ _ => Except.error "boom" }
          { skipSet := [], completed := [], frontier := [],
            maxRec := { url := "None", max_words := 0 } }
          "http://www.cs.uci.edu/p"
        = StepResult.raised "boom"
            { skipSet := [], completed := [], frontier := [],
              maxRec := (found_new_max { url := "None", max_words := 0 }
                "http://www.cs.uci.edu/p" 80).2 } :=
  ⟨rfl,
    claim_C1_amended
      { prep_download := fun _ => true,
        download := fun _ => some { contentLength := none, wordCount := 80 },
        max_file_size := 1, low_information_value := 50,
        page_is_similar := fun _ => false,
        scraper := fun _ _ => Except.error "boom" }
      { skipSet := [], completed := [], frontier := [],
        maxRec := { url := "None", max_words := 0 } }
      "http://www.cs.uci.edu/p" { contentLength := none, wordCount := 80 } "boom"
      rfl rfl rfl rfl rfl rfl⟩

/-- Claim C7: on every skip path of the worker pipeline, recording the URL in
the Skip Set and marking it complete in the Frontier occur together: whenever
an iteration completes with a skip decision, the URL is in both the Skip Set
and the completed set afterwards; moreover every completed iteration
preserves the invariant that all skipped URLs are marked complete. -/
theorem claim_C7_skip_then_complete (env : PipelineEnv) (st : CrawlState) (u : String)
    (out : Outcome) (st2 : CrawlState)
    (h : runOnce env st u = StepResult.ok out st2) :
    (out = Outcome.skipped → u ∈ st2.skipSet ∧ u ∈ st2.completed)
    ∧ (st.skipSet ⊆ st.completed → st2.skipSet ⊆ st2.completed) := by
  unfold runOnce at h
  split at h
  · injection h with h1 h2
    subst h1
    subst h2
    exact ⟨fun _ => ⟨mem_skipAdd_self st.skipSet u, mem_markComplete_self st.completed u⟩,
      fun hsub => skipAdd_subset_markComplete u hsub⟩
  · split at h
    · injection h with h1 h2
      subst h1
      subst h2
      exact ⟨fun _ => ⟨mem_skipAdd_self st.skipSet u, mem_markComplete_self st.completed u⟩,
        fun hsub => skipAdd_subset_markComplete u hsub⟩
    · split at h
      · injection h with h1 h2
        subst h1
        subst h2
        exact ⟨fun _ => ⟨mem_skipAdd_self st.skipSet u, mem_markComplete_self st.completed u⟩,
          fun hsub => skipAdd_subset_markComplete u hsub⟩
      · split at h
        · injection h with h1 h2
          subst h1
          subst h2
          exact ⟨fun _ => ⟨mem_skipAdd_self st.skipSet u, mem_markComplete_self st.completed u⟩,
            fun hsub => skipAdd_subset_markComplete u hsub⟩
        · split at h
          · injection h with h1 h2
            subst h1
            subst h2
            exact ⟨fun _ => ⟨mem_skipAdd_self st.skipSet u, mem_markComplete_self st.completed u⟩,
              fun hsub => skipAdd_subset_markComplete u hsub⟩
          · split at h
            · exact StepResult.noConfusion h
            · injection h with h1 h2
              subst h1
              subst h2
              refine ⟨fun hout => Outcome.noConfusion hout, fun hsub x hx => ?_⟩
              exact subset_markComplete st.completed u (hsub hx)

/-- Witness for C7 at a skip (failed pre-check) iteration. -/
theorem claim_C7_witness :
    runOnce
        { prep_download := fun _ => false, download := fun _ => none,
          max_file_size := 1, low_information_value := 50,
          page_is_similar := fun _ => false, scraper := fun _ _ => Except.ok [] }
        { skipSet := [], completed := [], frontier := [],
          maxRec := { url := "None", max_words := 0 } }
        "http://www.ics.uci.edu/q"
      = StepResult.ok Outcome.skipped
          { skipSet := ["http://www.ics.uci.edu/q"],
            completed := ["http://www.ics.uci.edu/q"], frontier := [],
            maxRec := { url := "None", max_words := 0 } }
    ∧ ((Outcome.skipped = Outcome.skipped →
          "http://www.ics.uci.edu/q" ∈ ["http://www.ics.uci.edu/q"]
          ∧ "http://www.ics.uci.edu/q" ∈ ["http://www.ics.uci.edu/q"])
      ∧ (([] : List String) ⊆ ([] : List String) →
          ["http://www.ics.uci.edu/q"] ⊆ ["http://www.ics.uci.edu/q"])) :=
  ⟨rfl,
    claim_C7_skip_then_complete
      { prep_download := fun _ => false, download := fun _ => none,
        max_file_size := 1, low_information_value := 50,
        page_is_similar := fun _ => false, scraper := fun _ _ => Except.ok [] }
      { skipSet := [], completed := [], frontier := [],
        maxRec := { url := "None", max_words := 0 } }
      "http://www.ics.uci.edu/q" Outcome.skipped
      { skipSet := ["http://www.ics.uci.edu/q"],
        completed := ["http://www.ics.uci.edu/q"], frontier := [],
        maxRec := { url := "None", max_words := 0 } }
      rfl⟩

/-- Counterexample for C8: a non-XML URL whose page has word count 0 — which
is strictly below the configured floor of 50 — is not skipped: the falsy word
count short-circuits the check (`get_word_count_from_response(resp) and ...`),
so the pipeline proceeds and completes the URL as processed, with an empty
Skip Set. -/
theorem claim_C8_counterexample :
    url_ends_with_xml "http://www.ics.uci.edu/a" = false
    ∧ (0 : ℕ) < 50
    ∧ runOnce
          { prep_download := fun _ => true,
            download := fun _ => some { contentLength := none, wordCount := 0 },
            max_file_size := 1, low_information_value := 50,
            page_is_similar := fun _ => false,
            scraper := fun _ _ => Except.ok [] }
          { skipSet := [], completed := [], frontier := [],
            maxRec := { url := "None", max_words := 0 } }
          "http://www.ics.uci.edu/a"
        = StepResult.ok Outcome.processed
            { skipSet := [], completed := ["http://www.ics.uci.edu/a"],
              frontier := [], maxRec := { url := "None", max_words := 0 } } :=
  ⟨rfl, by decide, rfl⟩

/-- Claim C8 (amended): for a non-XML URL that reaches the word-count floor
check, the URL is skipped (recorded in the Skip Set and marked complete)
when its word count is nonzero and strictly below the configured floor (a
zero word count is falsy and bypasses the check); and the floor check is not
applied to URLs ending in .xml — such a URL proceeds past both the floor and
the near-duplicate check regardless of its word count. -/
theorem claim_C8_amended (env : PipelineEnv) (st : CrawlState) (u : String)
    (resp : Response)
    (h1 : env.prep_download u = true)
    (h2 : env.download u = some resp)
    (h3 : size_exceeded env resp = false) :
    (url_ends_with_xml u = false → resp.wordCount ≠ 0 →
      resp.wordCount < env.low_information_value →
      runOnce env st u
        = StepResult.ok Outcome.skipped
            { st with skipSet := skipAdd st.skipSet u,
                      completed := markComplete st.completed u })
    ∧ (url_ends_with_xml u = true →
        ∀ links, env.scraper u resp = Except.ok links →
        runOnce env st u
          = StepResult.ok Outcome.processed
              { st with maxRec := (found_new_max st.maxRec u resp.wordCount).2,
                        frontier := links.foldl frontierAdd st.frontier,
                        completed := markComplete st.completed u }) := by
  constructor
  · intro hxml hw hlt
    have hlow : low_info_skip env u resp = true := by
      simp [low_info_skip, hxml, hw, hlt]
    simp [runOnce, h1, h2, h3, hlow]
  · intro hxml links hscr
    have hlow : low_info_skip env u resp = false := by
      simp [low_info_skip, hxml]
    have hsim : similar_skip env u resp = false := by
      simp [similar_skip, hxml]
    simp [runOnce, h1, h2, h3, hlow, hsim, hscr]

/-- Witness for the amended C8: a non-XML page with word count 10 under the
floor 50 is skipped, and the hypotheses hold at this concrete input. -/
theorem claim_C8_amended_witness :
    (PipelineEnv.prep_download
        { prep_download := fun _ => true,
          download := fun _ => some { contentLength := none, wordCount := 10 },
          max_file_size := 1, low_information_value := 50,
          page_is_similar := fun _ => false,
          scraper := fun _ _ => Except.ok [] }
        "http://www.stat.uci.edu/p" = true)
    ∧ ((url_ends_with_xml "http://www.stat.uci.edu/p" = false → (10 : ℕ) ≠ 0 →
          (10 : ℕ) < 50 →
          runOnce
              { prep_download := fun _ => true,
                download := fun _ => some { contentLength := none, wordCount := 10 },
                max_file_size := 1, low_information_value := 50,
                page_is_similar := fun _ => false,
                scraper := fun _ _ => Except.ok [] }
              { skipSet := [], completed := [], frontier := [],
                maxRec := { url := "None", max_words := 0 } }
              "http://www.stat.uci.edu/p"
            = StepResult.ok Outcome.skipped
                { skipSet := ["http://www.stat.uci.edu/p"],
                  completed := ["http://www.stat.uci.edu/p"], frontier := [],
                  maxRec := { url := "None", max_words := 0 } })
      ∧ (url_ends_with_xml "http://www.stat.uci.edu/p" = true →
          ∀ links, (Except.ok [] : Except PyErr (List String)) = Except.ok links →
          runOnce
              { prep_download := fun _ => true,
                download := fun _ => some { contentLength := none, wordCount := 10 },
                max_file_size := 1, low_information_value := 50,
                page_is_similar := fun _ => false,
                scraper := fun _ _ => Except.ok [] }
              { skipSet := [], completed := [], frontier := [],
                maxRec := { url := "None", max_words := 0 } }
              "http://www.stat.uci.edu/p"
            = StepResult.ok Outcome.processed
                { skipSet := [],
                  completed := ["http://www.stat.uci.edu/p"],
                  frontier := links.foldl frontierAdd [],
                  maxRec := { url := "http://www.stat.uci.edu/p", max_words := 10 } })) :=
  ⟨rfl,
    claim_C8_amended
      { prep_download := fun _ => true,
        download := fun _ => some { contentLength := none, wordCount := 10 },
        max_file_size := 1, low_information_value := 50,
        page_is_similar := fun _ => false,
        scraper := fun _ _ => Except.ok [] }
      { skipSet := [], completed := [], frontier := [],
        maxRec := { url := "None", max_words := 0 } }
      "http://www.stat.uci.edu/p" { contentLength := none, wordCount := 10 }
      rfl rfl rfl⟩
